import Mathlib

/-!
Verification development for the PLRailMap repository: a shallow embedding of
the streaming feature loader (`src/scripts/loader.py`), the validation rule
engine (`src/scripts/verify.py`, with the older variant `src/verify.py` where
it differs), and the station-mapping derivation of
`src/scripts/compare_stops.py`, together with theorems settling the frozen
claims about them.
-/

namespace PLRailMap

/-- A Python float that may be NaN: `none` models NaN, `some q` a finite value
(coordinates and distances; `src/scripts/loader.py` line 48 initialises
positions to `math.nan, math.nan`). -/
abbrev FVal := Option ℚ

/-- Python `c < x` on floats: false when `x` is NaN. -/
def fvalGt (x : FVal) (c : ℚ) : Bool :=
  match x with
  | none => false
  | some v => decide (c < v)

/-- Python `math.isnan`. -/
def fvalIsNan (x : FVal) : Bool := x.isNone

/-- A latitude/longitude pair (`position` in `src/scripts/loader.py`). -/
abbrev Pos := FVal × FVal

/-- Python `s.split(";")` with an explicit separator: split on every
semicolon, keeping empty pieces (helper recursion over the characters). -/
def splitSemiAux : List Char → List Char → List String
  | [], acc => [String.mk acc.reverse]
  | c :: cs, acc =>
      if c == ';' then String.mk acc.reverse :: splitSemiAux cs []
      else splitSemiAux cs (c :: acc)

/-- Python `s.split(";")`. -/
def splitSemi (s : String) : List String := splitSemiAux s.toList []

/-- `src/scripts/util.py` `osm_list`: `value.split(";") if value else []`. -/
def osm_list (value : String) : List String :=
  if value = "" then [] else splitSemi value

/-- Lexicographic comparison of character lists by code point, the order
Python `sorted` uses on strings. -/
def charListLe : List Char → List Char → Bool
  | [], _ => true
  | _ :: _, [] => false
  | a :: as, b :: bs => if a == b then charListLe as bs else decide (a.toNat < b.toNat)

/-- Python string comparison `a <= b` (code-point lexicographic). -/
def strLe (a b : String) : Bool := charListLe a.toList b.toList

/-- Python `k.startswith("_")`: the first character is an underscore. -/
def underscoreKey (k : String) : Bool :=
  match k.toList with
  | [] => false
  | c :: _ => c == '_'

/-- Python `d.setdefault(k, []).append(v)` on a dict: an existing group keeps
its position and grows at the end; a new key is appended (insertion order). -/
def dictAppend {α : Type} (d : List (String × List α)) (k : String) (v : α) :
    List (String × List α) :=
  match d with
  | [] => [(k, [v])]
  | (k0, vs) :: rest =>
      if k0 = k then (k0, vs ++ [v]) :: rest else (k0, vs) :: dictAppend rest k v

/-- `src/scripts/util.py` `group_by` (all uses key by strings). -/
def group_by {α : Type} (l : List α) (key : α → String) : List (String × List α) :=
  l.foldl (fun d v => dictAppend d (key v) v) []

/-- Python dict assignment `d[k] = v`: an existing key keeps its position and
gets the new value; a new key is appended. -/
def dictInsert {α : Type} (d : List (String × α)) (k : String) (v : α) :
    List (String × α) :=
  match d with
  | [] => [(k, v)]
  | (k0, v0) :: rest =>
      if k0 = k then (k0, v) :: rest else (k0, v0) :: dictInsert rest k v

/-- Python dict lookup `d.get(k)` for dictionaries built with `dictInsert` or
`dictAppend` (keys occur at most once, so the first match is the binding). -/
def dictGet {α : Type} (d : List (String × α)) (k : String) : Option α :=
  (d.find? (fun p => p.1 == k)).map (fun p => p.2)

/-- Lookup in an accumulated tag map (`self.tags`): a later assignment to the
same key overrides an earlier one, as in a Python dict. -/
def tagGet (tags : List (String × String)) (k : String) : Option String :=
  (tags.reverse.find? (fun p => p.1 == k)).map (fun p => p.2)

/-- Insertion step for `sortStrings`. -/
def insertSorted (x : String) : List String → List String
  | [] => [x]
  | y :: ys => if strLe x y then x :: y :: ys else y :: insertSorted x ys

/-- Python `sorted` on a list of strings. -/
def sortStrings (l : List String) : List String := l.foldr insertSorted []

/-- One step of Python `collections.Counter`: record one occurrence of `k`. -/
def counterAdd (c : List (String × Nat)) (k : String) : List (String × Nat) :=
  match c with
  | [] => [(k, 1)]
  | (k0, n) :: rest =>
      if k0 = k then (k0, n + 1) :: rest else (k0, n) :: counterAdd rest k

/-- Python `Counter(iterable)`: keys in first-occurrence order with counts. -/
def counterOf (l : List String) : List (String × Nat) := l.foldl counterAdd []

/-- Python `Counter.__getitem__`: the stored count, or `0` for a missing key. -/
def counterGet (c : List (String × Nat)) (k : String) : Nat :=
  ((c.find? (fun p => p.1 == k)).map (fun p => p.2)).getD 0

/-! The loader's domain entities, `src/scripts/loader.py` lines 10-40.
`other_tags` keeps the full accumulated tag dict including the synthetic
`_id` entry, as the Python code does. -/

/-- `src/scripts/loader.py` `Station`. -/
structure Station where
  id : String
  name : String
  pkpplk : String
  ibnr : Option String
  position : Pos
  other_tags : List (String × String)
deriving DecidableEq, Repr

/-- `src/scripts/loader.py` `Platform`. -/
structure Platform where
  id : String
  name : String
  station : String
  position : Pos
  other_tags : List (String × String)
deriving DecidableEq, Repr

/-- `src/scripts/loader.py` `StopPosition`. -/
structure StopPosition where
  id : String
  station : String
  towards : String
  platforms : List String
  position : Pos
deriving DecidableEq, Repr

/-- `src/scripts/loader.py` `BusStop`. -/
structure BusStop where
  id : String
  station : String
  direction_hints : List String
  position : Pos
deriving DecidableEq, Repr

/-- One closed top-level element of the document, carrying the attributes the
SAX handler has accumulated by the time `endElement` fires: a `node` has its
`id` attribute, position and tag pairs in document order; a `way` has its
`id`, tags, and `nd` point references in order. -/
inductive Element where
  | node (id : String) (pos : Pos) (tags : List (String × String))
  | way (id : String) (tags : List (String × String)) (refs : List String)
deriving DecidableEq, Repr

/-- The collections `OSMLoader.__init__` sets up: dictionaries as ordered
association lists, the `dangling_nodes` set as a duplicate-free list. -/
structure OSMLoader where
  stations : List Station
  platforms : List (String × List Platform)
  stop_positions : List (String × List StopPosition)
  bus_stops : List (String × List BusStop)
  dangling_nodes : List String
deriving DecidableEq, Repr

/-- The freshly constructed handler state. -/
def OSMLoader.init : OSMLoader := ⟨[], [], [], [], []⟩

/-- Python `set.add`. -/
def setAdd (s : List String) (x : String) : List String :=
  if x ∈ s then s else s ++ [x]

/-- Python `set.difference_update(refs)`. -/
def setDiff (s : List String) (refs : List String) : List String :=
  s.filter (fun x => !refs.contains x)

/-- `OSMLoader.endElement` for a point feature (`src/scripts/loader.py` lines
79-130), combined with the fatal conditions raised while the element was open:
a tag key starting with `_` raises `ValueError` in `startElement`, and a
missing required tag raises `KeyError` at classification; either aborts the
whole load, modelled as `none`. -/
def processNode (s : OSMLoader) (id : String) (pos : Pos)
    (tags : List (String × String)) : Option OSMLoader :=
  if tags.any (fun p => underscoreKey p.1) then none else
  let t := ("_id", id) :: tags
  if tagGet t "railway" = some "station" then
    match tagGet t "name", tagGet t "ref" with
    | some nm, some rf =>
        some { s with
          dangling_nodes := setAdd s.dangling_nodes id,
          stations := s.stations ++
            [{ id := id, name := nm, pkpplk := rf, ibnr := tagGet t "ref:ibnr",
               position := pos, other_tags := t }] }
    | _, _ => none
  else if tagGet t "public_transport" = some "platform" then
    match tagGet t "ref:station", tagGet t "name" with
    | some stRef, some nm =>
        let p : Platform :=
          { id := id, name := nm, station := stRef, position := pos,
            other_tags := t }
        some { s with platforms := dictAppend s.platforms stRef p }
    | _, _ => none
  else if tagGet t "public_transport" = some "stop_position" then
    match tagGet t "ref:station" with
    | some stRef =>
        let sp : StopPosition :=
          { id := id, station := stRef,
            towards := (tagGet t "towards").getD "",
            platforms := osm_list ((tagGet t "platforms").getD ""),
            position := pos }
        some { s with
          dangling_nodes := setAdd s.dangling_nodes id,
          stop_positions := dictAppend s.stop_positions stRef sp }
    | none => none
  else if tagGet t "highway" = some "bus_stop" then
    match tagGet t "ref:station" with
    | some stRef =>
        let b : BusStop :=
          { id := id, station := stRef,
            direction_hints := osm_list ((tagGet t "direction").getD ""),
            position := pos }
        some { s with bus_stops := dictAppend s.bus_stops stRef b }
    | none => none
  else some s

/-- `OSMLoader.endElement` for a line feature (`src/scripts/loader.py` lines
132-136), with the same fatal underscore-key condition. -/
def processWay (s : OSMLoader) (id : String) (tags : List (String × String))
    (refs : List String) : Option OSMLoader :=
  if tags.any (fun p => underscoreKey p.1) then none else
  if tagGet (("_id", id) :: tags) "railway" = some "rail" then
    some { s with dangling_nodes := setDiff s.dangling_nodes refs }
  else some s

/-- Processing of one closed element. -/
def processElement (s : OSMLoader) : Element → Option OSMLoader
  | .node id pos tags => processNode s id pos tags
  | .way id tags refs => processWay s id tags refs

/-- The forward pass over a list of closed elements. -/
def processElements (s : OSMLoader) : List Element → Option OSMLoader
  | [] => some s
  | e :: es =>
    match processElement s e with
    | none => none
    | some s1 => processElements s1 es

/-- `OSMLoader.load_all`: the handler state after the single forward pass. -/
def loadDoc (doc : List Element) : Option OSMLoader :=
  processElements OSMLoader.init doc

/-! The validation rule engine, `src/scripts/verify.py`. Diagnostic strings
are modelled as structured issues: each `Issue` constructor corresponds to one
message the Python code appends or prints, carrying the data interpolated into
it (colour codes and fixed wording dropped). -/

/-- `src/scripts/verify.py` line 16. -/
def HEADING_HINTS : List String := ["N", "NE", "E", "SE", "S", "SW", "W", "NW"]

/-- `src/scripts/verify.py` line 17. -/
def VALID_HINTS : List String := "*" :: "T" :: HEADING_HINTS

/-- The diagnostic messages of the rule engine, one constructor per distinct
message shape. -/
inductive Issue where
  | invalidHint (hint : String)
  | wildcardClash (hint : String)
  | hintUsedTimes (hint : String) (count : Nat)
  | onlyTerminus
  | onlyOneHeading
  | platformNameReused (name : String) (ids : List String)
  | platformTooFar (name : String) (d : FVal)
  | platformInvalidZtmw (name : String) (code : String)
  | platformInvalidWheelchair (name : String) (v : Option String)
  | spTooFar (id : String) (d : FVal)
  | spNoPlatforms (id : String)
  | spUnknownTowards (id : String) (refs : List String)
  | fallbackCount (n : Nat)
  | incompleteCoverage (hints : List String)
  | busStopNoHints (id : String)
  | stationInvalidWheelchair (v : Option String)
  | stationInvalidZtmw (v : String)
deriving DecidableEq, Repr

/-- `_validate_station_direction_hints`, `src/scripts/verify.py` lines
403-439 (`src/verify.py` lines 269-293 inline the same checks with the same
structure). The Counter argument is an association list of distinct keys with
their counts, in insertion order. -/
def validateDirectionHints (direction_hints : List (String × Nat)) : List Issue :=
  if direction_hints = [] then [] else
  let wildcard_used : Bool := decide (0 < counterGet direction_hints "*")
  let perToken := direction_hints.flatMap (fun hc =>
    if ¬ hc.1 ∈ VALID_HINTS then [Issue.invalidHint hc.1]
    else if wildcard_used && HEADING_HINTS.contains hc.1 then [Issue.wildcardClash hc.1]
    else if 1 < hc.2 then [Issue.hintUsedTimes hc.1 hc.2]
    else [])
  let used_heading_hints :=
    (direction_hints.map Prod.fst).filter (fun h => HEADING_HINTS.contains h)
  perToken
    ++ (if (direction_hints.map Prod.fst).contains "T" && !wildcard_used
           && used_heading_hints.isEmpty
        then [Issue.onlyTerminus] else [])
    ++ (if !wildcard_used && decide (used_heading_hints.length < 2)
        then [Issue.onlyOneHeading] else [])

/-- `re.fullmatch(r"[0-9]9[0-9][0-9]", s)`: the station `ref:ztmw` pattern of
`src/scripts/verify.py` line 158. -/
def isZtmwStationCode (s : String) : Bool :=
  match s.toList with
  | [a, b, c, d] => a.isDigit && (b == '9') && c.isDigit && d.isDigit
  | _ => false

/-- `re.fullmatch(r"[0-9]9[0-9]{4}", s)`: the platform ZTM Warszawa pattern of
`src/scripts/verify.py` line 231. -/
def isZtmwPlatformCode (s : String) : Bool :=
  match s.toList with
  | [a, b, c, d, e, f] =>
      a.isDigit && (b == '9') && c.isDigit && d.isDigit && e.isDigit && f.isDigit
  | _ => false

/-- `wheelchair_value not in (None, "yes", "no")`. -/
def wheelchairBad (v : Option String) : Bool :=
  match v with
  | none => false
  | some s => !(s == "yes" || s == "no")

/-- The per-platform body of `verify_platforms`' inner loop,
`src/scripts/verify.py` lines 218-246: proximity, ZTM codes, wheelchair. The
geometric `distance` of `src/scripts/util.py` computes over floats, so it
enters only through its result `dist`. -/
def platformEntityIssues (dist : Pos → Pos → FVal) (station : Station)
    (platform : Platform) : List Issue :=
  let d := dist platform.position station.position
  (if fvalGt d 100 || fvalIsNan d then [Issue.platformTooFar platform.name d] else [])
  ++ ((osm_list ((tagGet platform.other_tags "ref:ztmw").getD "")).filterMap
       (fun code =>
         if isZtmwPlatformCode code then none
         else some (Issue.platformInvalidZtmw platform.name code)))
  ++ (if wheelchairBad (tagGet platform.other_tags "wheelchair")
      then [Issue.platformInvalidWheelchair platform.name
              (tagGet platform.other_tags "wheelchair")]
      else [])

/-- Platform-name uniqueness inside one station group, `src/scripts/verify.py`
lines 200-207. -/
def platformNameIssues (platforms : List Platform) : List Issue :=
  ((group_by platforms (fun p => p.name)).map Prod.snd).filterMap
    (fun g => match g with
      | p :: q :: rest =>
          some (Issue.platformNameReused p.name
            (sortStrings ((p :: q :: rest).map (fun i => i.id))))
      | _ => none)

/-- The issue list `verify_platforms` accumulates for one resolved station
group (`src/scripts/verify.py` lines 200-246): duplicate names, then the
shared direction-hint checks over all the platforms, then per-platform
checks. -/
def platformGroupIssues (dist : Pos → Pos → FVal) (station : Station)
    (platforms : List Platform) : List Issue :=
  platformNameIssues platforms
  ++ validateDirectionHints (counterOf (platforms.flatMap
       (fun p => osm_list ((tagGet p.other_tags "direction").getD ""))))
  ++ platforms.flatMap (platformEntityIssues dist station)

/-- What the grouped rule functions print for one dictionary entry: either
the invalid-reference line with the sorted member ids, or the
`Issues in <station>` block. -/
inductive GroupReport where
  | invalidRef (stationId : String) (memberIds : List String)
  | stationIssues (stationId : String) (issues : List Issue)
deriving DecidableEq, Repr

/-- One iteration of the engine's reporting loops: a group that yields a
report is printed and forces `ok = False`; otherwise the state is kept. -/
def reportStep {γ R : Type} (f : γ → Option R) (acc : List R × Bool) (g : γ) :
    List R × Bool :=
  match f g with
  | some r => (acc.1 ++ [r], false)
  | none => acc

/-- A full reporting loop: start with `ok = True` and fold `reportStep` over
the groups in order. -/
def runChecks {γ R : Type} (f : γ → Option R) (l : List γ) : List R × Bool :=
  l.foldl (reportStep f) ([], true)

/-- The per-group body of `verify_platforms`, `src/scripts/verify.py` lines
186-256: an unresolved station reference is reported and the group skipped
(`continue`); otherwise the collected issues are printed when non-empty. -/
def platformsGroupCheck (dist : Pos → Pos → FVal)
    (stations_map : List (String × Station)) (g : String × List Platform) :
    Option GroupReport :=
  match dictGet stations_map g.1 with
  | none => some (GroupReport.invalidRef g.1 (sortStrings (g.2.map (fun p => p.id))))
  | some station =>
      let issues := platformGroupIssues dist station g.2
      if issues = [] then none else some (GroupReport.stationIssues g.1 issues)

/-- `verify_platforms`, `src/scripts/verify.py` lines 179-261: the reports in
print order and the boolean result. -/
def verify_platforms (dist : Pos → Pos → FVal)
    (stations_map : List (String × Station))
    (all_platforms : List (String × List Platform)) : List GroupReport × Bool :=
  runChecks (platformsGroupCheck dist stations_map) all_platforms

/-- The per-stop-position body of `verify_stop_positions`' inner loop,
`src/scripts/verify.py` lines 287-319: proximity, the `platforms` tag, and
the `towards` tag. -/
def spEntityIssues (dist : Pos → Pos → FVal)
    (stations_map : List (String × Station)) (station : Station)
    (sp : StopPosition) : List Issue :=
  let d := dist sp.position station.position
  (if fvalGt d 100 || fvalIsNan d then [Issue.spTooFar sp.id d] else [])
  ++ (if sp.platforms = [] then [Issue.spNoPlatforms sp.id] else [])
  ++ (if sp.towards == "" then []
      else if sp.towards == "fallback" then []
      else
        let unknown := (splitSemi sp.towards).filter
          (fun r => (dictGet stations_map r).isNone)
        if unknown = [] then []
        else [Issue.spUnknownTowards sp.id (sortStrings unknown.dedup)])

/-- The loop accumulator `fallback_stop_positions`: how many stop positions of
the group carry `towards == "fallback"`. -/
def fallbackCountOf (sps : List StopPosition) : Nat :=
  (sps.filter (fun sp => sp.towards == "fallback")).length

/-- The issue list `verify_stop_positions` accumulates for one resolved
station group, `src/scripts/verify.py` lines 286-326: the per-entity checks,
then the exactly-one-fallback rule. -/
def spGroupIssues (dist : Pos → Pos → FVal)
    (stations_map : List (String × Station)) (station : Station)
    (sps : List StopPosition) : List Issue :=
  sps.flatMap (spEntityIssues dist stations_map station)
  ++ (if fallbackCountOf sps ≠ 1 then [Issue.fallbackCount (fallbackCountOf sps)]
      else [])

/-- The per-group body of `verify_stop_positions`, `src/scripts/verify.py`
lines 271-336. -/
def spGroupCheck (dist : Pos → Pos → FVal)
    (stations_map : List (String × Station)) (g : String × List StopPosition) :
    Option GroupReport :=
  match dictGet stations_map g.1 with
  | none => some (GroupReport.invalidRef g.1 (sortStrings (g.2.map (fun sp => sp.id))))
  | some station =>
      let issues := spGroupIssues dist stations_map station g.2
      if issues = [] then none else some (GroupReport.stationIssues g.1 issues)

/-- `verify_stop_positions`, `src/scripts/verify.py` lines 264-341. -/
def verify_stop_positions (dist : Pos → Pos → FVal)
    (stations_map : List (String × Station))
    (all_stop_positions : List (String × List StopPosition)) :
    List GroupReport × Bool :=
  runChecks (spGroupCheck dist stations_map) all_stop_positions

/-- The per-group bus-stop checks, `src/scripts/verify.py` lines 365-385: the
single-stop coverage rule or the per-stop hint-existence rule, then the shared
direction-hint checks over all the stops' hints. -/
def busGroupIssues (bus_stops : List BusStop) : List Issue :=
  (match bus_stops with
   | [b] =>
      if b.direction_hints ≠ [] ∧ b.direction_hints ≠ ["*"]
      then [Issue.incompleteCoverage b.direction_hints] else []
   | _ =>
      (bus_stops.filter (fun b => b.direction_hints.isEmpty)).map
        (fun b => Issue.busStopNoHints b.id))
  ++ validateDirectionHints (counterOf (bus_stops.flatMap (fun b => b.direction_hints)))

/-- The per-group body of `verify_bus_stops`, `src/scripts/verify.py` lines
351-395. -/
def busGroupCheck (stations_map : List (String × Station))
    (g : String × List BusStop) : Option GroupReport :=
  match dictGet stations_map g.1 with
  | none => some (GroupReport.invalidRef g.1 (sortStrings (g.2.map (fun b => b.id))))
  | some _station =>
      let issues := busGroupIssues g.2
      if issues = [] then none else some (GroupReport.stationIssues g.1 issues)

/-- `verify_bus_stops`, `src/scripts/verify.py` lines 344-400. -/
def verify_bus_stops (stations_map : List (String × Station))
    (all_bus_stops : List (String × List BusStop)) : List GroupReport × Bool :=
  runChecks (busGroupCheck stations_map) all_bus_stops

/-- `verify_uniq_pkpplk`, `src/scripts/verify.py` lines 54-81 (identical
grouping in `src/verify.py`): the duplicate groups printed, and the result. -/
def verify_uniq_pkpplk (stations : List Station) : List (List Station) × Bool :=
  runChecks (fun g => if 1 < g.2.length then some g.2 else none)
    (group_by stations (fun s => s.pkpplk))

/-- `verify_uniq_names`, `src/scripts/verify.py` lines 84-111: every
duplicate-name group is reported; this variant has no allow-list. -/
def verify_uniq_names (stations : List Station) : List (List Station) × Bool :=
  runChecks (fun g => if 1 < g.2.length then some g.2 else none)
    (group_by stations (fun s => s.name))

/-- `verify_uniq_names` of the older `src/verify.py`, lines 153-179: a
duplicate-name group whose members all carry `ibnr == "404"` (the Warszawa
Zachodnia nodes) is skipped with `continue`. -/
def verify_uniq_names_legacy (stations : List Station) :
    List (List Station) × Bool :=
  runChecks (fun g =>
      if 1 < g.2.length then
        if g.2.all (fun s => s.ibnr == some "404") then none else some g.2
      else none)
    (group_by stations (fun s => s.name))

/-- `verify_uniq_ibnr`, `src/scripts/verify.py` lines 114-140: only stations
whose `ibnr` is not `None` are grouped. -/
def verify_uniq_ibnr (stations : List Station) : List (List Station) × Bool :=
  runChecks (fun g => if 1 < g.2.length then some g.2 else none)
    (group_by (stations.filter (fun s => s.ibnr.isSome)) (fun s => s.ibnr.getD ""))

/-- The per-station body of `verify_other_attributes`, `src/scripts/verify.py`
lines 148-161: wheelchair format and the `ref:ztmw` digit pattern. -/
def stationAttrIssues (station : Station) : List Issue :=
  (if wheelchairBad (tagGet station.other_tags "wheelchair")
   then [Issue.stationInvalidWheelchair (tagGet station.other_tags "wheelchair")]
   else [])
  ++ (match tagGet station.other_tags "ref:ztmw" with
      | none => []
      | some v => if isZtmwStationCode v then [] else [Issue.stationInvalidZtmw v])

/-- `verify_other_attributes`, `src/scripts/verify.py` lines 143-176. -/
def verify_other_attributes (stations : List Station) :
    List (String × List Issue) × Bool :=
  runChecks (fun station =>
      let issues := stationAttrIssues station
      if issues = [] then none else some (station.pkpplk, issues))
    stations

/-- `{i.pkpplk: i for i in data.stations}`, `src/scripts/verify.py` line 450. -/
def stationsMapOf (stations : List Station) : List (String × Station) :=
  stations.foldl (fun d s => dictInsert d s.pkpplk s) []

/-- The `__main__` block of `src/scripts/verify.py`, lines 442-455: each rule
group is evaluated (`verify_x(...)` runs before the `and`), and `ok` is the
running conjunction. -/
def verify_main_ok (dist : Pos → Pos → FVal) (data : OSMLoader) : Bool :=
  let ok := true
  let ok := (verify_uniq_pkpplk data.stations).2 && ok
  let ok := (verify_uniq_names data.stations).2 && ok
  let ok := (verify_uniq_ibnr data.stations).2 && ok
  let ok := (verify_other_attributes data.stations).2 && ok
  let stations_map := stationsMapOf data.stations
  let ok := (verify_platforms dist stations_map data.platforms).2 && ok
  let ok := (verify_stop_positions dist stations_map data.stop_positions).2 && ok
  let ok := (verify_bus_stops stations_map data.bus_stops).2 && ok
  ok

/-- `sys.exit(0 if ok else 1)`, `src/scripts/verify.py` line 455. -/
def verify_exit_code (dist : Pos → Pos → FVal) (data : OSMLoader) : Nat :=
  if verify_main_ok dist data then 0 else 1

/-- Python dict comprehension `{key(i): i for i in l if cond(i)}`: left fold
of overwriting insertion over the surviving elements. -/
def buildMap {α : Type} (cond : α → Bool) (key : α → String) (l : List α) :
    List (String × α) :=
  l.foldl (fun acc s => if cond s then dictInsert acc (key s) s else acc) []

/-- Python truthiness of the `pkpplk` string field: non-empty. -/
def pkpplkTruthy (s : Station) : Bool := !(s.pkpplk == "")

/-- `src/scripts/compare_stops.py` line 81:
`{i.pkpplk: i for i in all_stations if i.pkpplk}`. -/
def stations_by_pkpplk (all_stations : List Station) : List (String × Station) :=
  buildMap pkpplkTruthy (fun s => s.pkpplk) all_stations

/-- Python truthiness of the optional `ibnr` field: `None` and `""` are
falsy. -/
def ibnrTruthy (s : Station) : Bool :=
  match s.ibnr with
  | none => false
  | some v => !(v == "")

/-- `src/scripts/compare_stops.py` line 82:
`{i.ibnr: i for i in all_stations if i.ibnr}`. -/
def stations_by_ibnr (all_stations : List Station) : List (String × Station) :=
  buildMap ibnrTruthy (fun s => s.ibnr.getD "") all_stations

/-- The values of an association-list dictionary. -/
def dictValues {α : Type} (d : List (String × α)) : List α := d.map Prod.snd

/-! Dangling-node analysis (claim C1). -/

/-- Whether a closed element inserts `x` into `dangling_nodes`: a point
feature whose tags classify it as a station (line 83-84 of
`src/scripts/loader.py`) or, failing the earlier branches, as a stop position
(lines 108-109), carrying id `x`. -/
def elementAddsDangling (e : Element) (x : String) : Bool :=
  match e with
  | .node id _ tags =>
      let t := ("_id", id) :: tags
      id == x &&
        (tagGet t "railway" == some "station"
         || (!(tagGet t "railway" == some "station")
             && !(tagGet t "public_transport" == some "platform")
             && tagGet t "public_transport" == some "stop_position"))
  | .way _ _ _ => false

/-- Whether a closed element removes `x` from `dangling_nodes`: a rail-tagged
line feature listing `x` among its point references (lines 135-136). -/
def elementRemovesDangling (e : Element) (x : String) : Bool :=
  match e with
  | .node _ _ _ => false
  | .way id tags refs =>
      tagGet (("_id", id) :: tags) "railway" == some "rail" && refs.contains x

/-- The effect of one element on membership of `x` in the dangling set. -/
def stepDangling (e : Element) (x : String) (b : Bool) : Bool :=
  if elementAddsDangling e x then true
  else if elementRemovesDangling e x then false
  else b

/-- Membership of `x` in the dangling set tracked across a list of elements,
starting from membership value `b`. -/
def danglingTrack (x : String) (b : Bool) : List Element → Bool
  | [] => b
  | e :: es => danglingTrack x (stepDangling e x b) es

theorem setAdd_mem (s : List String) (a x : String) :
    decide (x ∈ setAdd s a) = (x == a || decide (x ∈ s)) := by
  by_cases h : a ∈ s
  · by_cases hx : x = a <;> simp [setAdd, h, hx]
  · by_cases hx : x = a <;> simp [setAdd, h, hx]

theorem setDiff_mem (s refs : List String) (x : String) :
    decide (x ∈ setDiff s refs) = (decide (x ∈ s) && !refs.contains x) := by
  by_cases h : x ∈ s <;> by_cases hr : x ∈ refs <;>
    simp [setDiff, List.mem_filter, h, hr]

theorem processElement_dangling (s : OSMLoader) (e : Element) (s1 : OSMLoader)
    (h : processElement s e = some s1) (x : String) :
    decide (x ∈ s1.dangling_nodes) =
      stepDangling e x (decide (x ∈ s.dangling_nodes)) := by
  cases e with
  | node id pos tags =>
    simp only [processElement, processNode] at h
    by_cases hu : tags.any (fun p => underscoreKey p.1) <;> simp [hu] at h
    by_cases h1 : tagGet (("_id", id) :: tags) "railway" = some "station"
    · simp only [h1, if_pos] at h
      cases hn : tagGet (("_id", id) :: tags) "name" <;>
        cases hr : tagGet (("_id", id) :: tags) "ref" <;>
          simp [hn, hr] at h
      subst h
      by_cases hx : x = id
      · subst hx
        simp [stepDangling, elementAddsDangling, h1, setAdd_mem]
      · have hx2 : ¬ id = x := fun hh => hx hh.symm
        simp [stepDangling, elementAddsDangling, elementRemovesDangling, h1, hx, hx2,
          setAdd_mem]
    · simp only [h1, if_neg, if_false] at h
      by_cases h2 : tagGet (("_id", id) :: tags) "public_transport" = some "platform"
      · simp only [h2, if_pos] at h
        cases hn : tagGet (("_id", id) :: tags) "ref:station" <;>
          cases hr : tagGet (("_id", id) :: tags) "name" <;>
            simp [hn, hr] at h
        subst h
        simp [stepDangling, elementAddsDangling, elementRemovesDangling, h1, h2]
      · simp only [h2, if_neg, if_false] at h
        by_cases h3 : tagGet (("_id", id) :: tags) "public_transport" = some "stop_position"
        · simp only [h3, if_pos] at h
          cases hn : tagGet (("_id", id) :: tags) "ref:station" <;> simp [hn] at h
          subst h
          by_cases hx : x = id
          · subst hx
            simp [stepDangling, elementAddsDangling, h1, h2, h3, setAdd_mem]
          · have hx2 : ¬ id = x := fun hh => hx hh.symm
            simp [stepDangling, elementAddsDangling, elementRemovesDangling, h1, h2, h3,
              hx, hx2, setAdd_mem]
        · simp only [h3, if_neg, if_false] at h
          by_cases h4 : tagGet (("_id", id) :: tags) "highway" = some "bus_stop"
          · simp only [h4, if_pos] at h
            cases hn : tagGet (("_id", id) :: tags) "ref:station" <;> simp [hn] at h
            subst h
            simp [stepDangling, elementAddsDangling, elementRemovesDangling, h1, h2, h3]
          · simp only [h4, if_neg, if_false] at h
            injection h with h
            subst h
            simp [stepDangling, elementAddsDangling, elementRemovesDangling, h1, h2, h3]
  | way id tags refs =>
    simp only [processElement, processWay] at h
    by_cases hu : tags.any (fun p => underscoreKey p.1) <;> simp [hu] at h
    by_cases h1 : tagGet (("_id", id) :: tags) "railway" = some "rail"
    · simp only [h1, if_pos] at h
      injection h with h
      subst h
      simp only [stepDangling, elementAddsDangling, elementRemovesDangling, setDiff_mem, h1]
      by_cases hr : refs.contains x = true <;> simp [hr, Bool.and_comm]
    · simp only [h1, if_neg, if_false] at h
      injection h with h
      subst h
      simp [stepDangling, elementAddsDangling, elementRemovesDangling, h1]

theorem processElements_dangling (es : List Element) : ∀ (s s1 : OSMLoader),
    processElements s es = some s1 → ∀ x : String,
      decide (x ∈ s1.dangling_nodes) =
        danglingTrack x (decide (x ∈ s.dangling_nodes)) es := by
  induction es with
  | nil =>
    intro s s1 h x
    simp only [processElements] at h
    cases h
    rfl
  | cons e es ih =>
    intro s s1 h x
    simp only [processElements] at h
    cases he : processElement s e with
    | none => rw [he] at h; cases h
    | some s2 =>
      rw [he] at h
      simp only [danglingTrack]
      rw [← processElement_dangling s e s2 he x]
      exact ih s2 s1 h x

theorem danglingTrack_no_adds (x : String) (es : List Element) : ∀ b : Bool,
    (∀ e ∈ es, elementAddsDangling e x = false) →
    danglingTrack x b es = (b && !es.any (fun e => elementRemovesDangling e x)) := by
  induction es with
  | nil => intro b _; simp [danglingTrack]
  | cons e es ih =>
    intro b hadd
    have he : elementAddsDangling e x = false := hadd e (List.mem_cons_self e es)
    have hrest : ∀ e1 ∈ es, elementAddsDangling e1 x = false :=
      fun e1 h1 => hadd e1 (List.mem_cons_of_mem e h1)
    simp only [danglingTrack, stepDangling, he, if_false, Bool.false_eq_true]
    by_cases hr : elementRemovesDangling e x = true <;>
      simp [hr, ih _ hrest]

theorem danglingTrack_append (x : String) (l1 l2 : List Element) : ∀ b : Bool,
    danglingTrack x b (l1 ++ l2) = danglingTrack x (danglingTrack x b l1) l2 := by
  induction l1 with
  | nil => intro b; rfl
  | cons e l1 ih =>
    intro b
    rw [List.cons_append]
    simp only [danglingTrack]
    exact ih _

/-- C1 (amended): once a station or stop-position node has been classified, a
`railway=rail` way occurring later in the document removes it from
`dangling_nodes`, and those are the only removals that reach the final set:
for an identifier declared by exactly one element, absence from the final set
is equivalent to some rail way after the declaration listing it. A rail way
that only occurs before the declaration does not remove it (see the
counterexample), and an identifier never referenced by any rail way remains
dangling at end-of-document. -/
theorem dangling_absent_iff_rail_after (pre post : List Element) (e : Element)
    (x : String) (st : OSMLoader)
    (hadd : elementAddsDangling e x = true)
    (hpre : ∀ e1 ∈ pre, elementAddsDangling e1 x = false)
    (hpost : ∀ e1 ∈ post, elementAddsDangling e1 x = false)
    (hload : loadDoc (pre ++ e :: post) = some st) :
    ¬ x ∈ st.dangling_nodes ↔ ∃ w ∈ post, elementRemovesDangling w x = true := by
  have hmem := processElements_dangling (pre ++ e :: post) OSMLoader.init st hload x
  rw [danglingTrack_append] at hmem
  have hpre0 : danglingTrack x (decide (x ∈ OSMLoader.init.dangling_nodes)) pre = false := by
    rw [danglingTrack_no_adds x pre _ hpre]
    simp [OSMLoader.init]
  rw [hpre0] at hmem
  simp only [danglingTrack, stepDangling, hadd, if_pos] at hmem
  rw [danglingTrack_no_adds x post true hpost] at hmem
  simp only [Bool.true_and] at hmem
  constructor
  · intro hx
    have : (post.any (fun e => elementRemovesDangling e x)) = true := by
      by_contra hany
      have : (!post.any (fun e => elementRemovesDangling e x)) = true := by
        simp [Bool.not_eq_true] at hany ⊢
        exact hany
      rw [this] at hmem
      exact hx (of_decide_eq_true hmem)
    exact List.any_eq_true.mp this
  · intro ⟨w, hw, hrw⟩ hx
    have hany : post.any (fun e => elementRemovesDangling e x) = true :=
      List.any_eq_true.mpr ⟨w, hw, hrw⟩
    rw [hany] at hmem
    simp at hmem
    exact hmem hx

/-- The document of the C1 counterexample: the rail way that references node
`1` comes first, the station node is declared afterwards. -/
def railFirstDoc : List Element :=
  [Element.way "9" [("railway", "rail")] ["1"],
   Element.node "1" (none, none) [("railway", "station"), ("name", "A"), ("ref", "r1")]]

/-- C1 counterexample: in `railFirstDoc` a `railway=rail` line feature lists
the station identifier `1` among its point references, yet `1` is still in
`dangling_nodes` at end-of-document, because the way was processed before the
station node was classified. This falsifies the claimed equivalence
(absent from the set iff some rail way lists the identifier). -/
theorem dangling_rail_before_counterexample :
    (loadDoc railFirstDoc).map (fun st => decide ((["1"] : List String) ⊆ st.dangling_nodes))
        = some true
    ∧ railFirstDoc.any (fun w => elementRemovesDangling w "1") = true := by
  constructor
  · decide
  · decide

/-- The station node of the C1 witness document. -/
def c1NodeE : Element :=
  Element.node "1" (none, none) [("railway", "station"), ("name", "A"), ("ref", "r1")]

/-- The rail way of the C1 witness document, declared after the node. -/
def c1WayE : Element := Element.way "9" [("railway", "rail")] ["1"]

/-- The loader state after processing `c1NodeE` then `c1WayE`. -/
def c1State : OSMLoader :=
  { stations := [{ id := "1", name := "A", pkpplk := "r1", ibnr := none,
                   position := (none, none),
                   other_tags := [("_id", "1"), ("railway", "station"),
                                  ("name", "A"), ("ref", "r1")] }],
    platforms := [], stop_positions := [], bus_stops := [], dangling_nodes := [] }

theorem dangling_absent_iff_rail_after_witness :
    loadDoc ([] ++ c1NodeE :: [c1WayE]) = some c1State
    ∧ (¬ "1" ∈ c1State.dangling_nodes ↔
        ∃ w ∈ [c1WayE], elementRemovesDangling w "1" = true) :=
  ⟨by decide,
   dangling_absent_iff_rail_after [] [c1WayE] c1NodeE "1" c1State
     (by decide) (by simp) (by decide) (by decide)⟩

/-! Node classification (claim C9). -/

/-- Total number of entities stored in a station-keyed dictionary. -/
def dictCount {α : Type} (d : List (String × List α)) : Nat :=
  (d.map (fun g => g.2.length)).sum

/-- Total number of domain entities reconstructed so far. -/
def entityCount (s : OSMLoader) : Nat :=
  s.stations.length + dictCount s.platforms + dictCount s.stop_positions
    + dictCount s.bus_stops

theorem dictCount_append {α : Type} (d : List (String × List α)) (k : String)
    (v : α) : dictCount (dictAppend d k v) = dictCount d + 1 := by
  induction d with
  | nil => simp [dictAppend, dictCount]
  | cons g rest ih =>
    cases g with
    | mk k0 vs =>
      by_cases h : k0 = k <;> simp [dictAppend, h, dictCount] <;>
        simp [dictCount] at ih <;> omega

/-- C9: a closed point feature adds at most one domain entity, and the
classification follows the `elif` precedence of `endElement`
(`src/scripts/loader.py` lines 83-130): `railway=station` wins over
everything and touches only `stations`; otherwise `public_transport=platform`
touches only `platforms`; otherwise `public_transport=stop_position` only
`stop_positions`; otherwise `highway=bus_stop` only `bus_stops`; otherwise
the entity collections are untouched. -/
theorem node_classification_precedence (s : OSMLoader) (id : String) (pos : Pos)
    (tags : List (String × String)) (s1 : OSMLoader)
    (h : processNode s id pos tags = some s1) :
    entityCount s1 ≤ entityCount s + 1
    ∧ (tagGet (("_id", id) :: tags) "railway" = some "station" →
        s1.stations.length = s.stations.length + 1
        ∧ s1.platforms = s.platforms
        ∧ s1.stop_positions = s.stop_positions
        ∧ s1.bus_stops = s.bus_stops)
    ∧ (tagGet (("_id", id) :: tags) "railway" ≠ some "station" →
       tagGet (("_id", id) :: tags) "public_transport" = some "platform" →
        s1.stations = s.stations
        ∧ dictCount s1.platforms = dictCount s.platforms + 1
        ∧ s1.stop_positions = s.stop_positions
        ∧ s1.bus_stops = s.bus_stops)
    ∧ (tagGet (("_id", id) :: tags) "railway" ≠ some "station" →
       tagGet (("_id", id) :: tags) "public_transport" ≠ some "platform" →
       tagGet (("_id", id) :: tags) "public_transport" = some "stop_position" →
        s1.stations = s.stations
        ∧ s1.platforms = s.platforms
        ∧ dictCount s1.stop_positions = dictCount s.stop_positions + 1
        ∧ s1.bus_stops = s.bus_stops)
    ∧ (tagGet (("_id", id) :: tags) "railway" ≠ some "station" →
       tagGet (("_id", id) :: tags) "public_transport" ≠ some "platform" →
       tagGet (("_id", id) :: tags) "public_transport" ≠ some "stop_position" →
       tagGet (("_id", id) :: tags) "highway" = some "bus_stop" →
        s1.stations = s.stations
        ∧ s1.platforms = s.platforms
        ∧ s1.stop_positions = s.stop_positions
        ∧ dictCount s1.bus_stops = dictCount s.bus_stops + 1)
    ∧ (tagGet (("_id", id) :: tags) "railway" ≠ some "station" →
       tagGet (("_id", id) :: tags) "public_transport" ≠ some "platform" →
       tagGet (("_id", id) :: tags) "public_transport" ≠ some "stop_position" →
       tagGet (("_id", id) :: tags) "highway" ≠ some "bus_stop" →
        s1 = s) := by
  simp only [processNode] at h
  by_cases hu : tags.any (fun p => underscoreKey p.1) <;> simp [hu] at h
  by_cases h1 : tagGet (("_id", id) :: tags) "railway" = some "station"
  · simp only [h1, if_pos] at h
    cases hn : tagGet (("_id", id) :: tags) "name" <;>
      cases hr : tagGet (("_id", id) :: tags) "ref" <;> simp [hn, hr] at h
    subst h
    refine ⟨?_, fun _ => ⟨by simp, rfl, rfl, rfl⟩,
      fun hc _ => absurd h1 hc, fun hc _ _ => absurd h1 hc,
      fun hc _ _ _ => absurd h1 hc, fun hc _ _ _ => absurd h1 hc⟩
    simp [entityCount]
    omega
  · simp only [h1, if_neg, if_false] at h
    by_cases h2 : tagGet (("_id", id) :: tags) "public_transport" = some "platform"
    · simp only [h2, if_pos] at h
      cases hn : tagGet (("_id", id) :: tags) "ref:station" <;>
        cases hr : tagGet (("_id", id) :: tags) "name" <;> simp [hn, hr] at h
      subst h
      refine ⟨?_, fun hst => absurd hst h1,
        fun _ _ => ⟨rfl, by simp [dictCount_append], rfl, rfl⟩,
        fun _ hp _ => absurd h2 hp, fun _ hp _ _ => absurd h2 hp,
        fun _ hp _ _ => absurd h2 hp⟩
      simp [entityCount, dictCount_append]
      omega
    · simp only [h2, if_neg, if_false] at h
      by_cases h3 : tagGet (("_id", id) :: tags) "public_transport"
          = some "stop_position"
      · simp only [h3, if_pos] at h
        cases hn : tagGet (("_id", id) :: tags) "ref:station" <;> simp [hn] at h
        subst h
        refine ⟨?_, fun hst => absurd hst h1, fun _ hp => absurd hp h2,
          fun _ _ _ => ⟨rfl, rfl, by simp [dictCount_append], rfl⟩,
          fun _ _ hsp _ => absurd h3 hsp, fun _ _ hsp _ => absurd h3 hsp⟩
        simp [entityCount, dictCount_append]
        omega
      · simp only [h3, if_neg, if_false] at h
        by_cases h4 : tagGet (("_id", id) :: tags) "highway" = some "bus_stop"
        · simp only [h4, if_pos] at h
          cases hn : tagGet (("_id", id) :: tags) "ref:station" <;> simp [hn] at h
          subst h
          refine ⟨?_, fun hst => absurd hst h1, fun _ hp => absurd hp h2,
            fun _ _ hsp => absurd hsp h3,
            fun _ _ _ _ => ⟨rfl, rfl, rfl, by simp [dictCount_append]⟩,
            fun _ _ _ hb => absurd h4 hb⟩
          simp [entityCount, dictCount_append]
          omega
        · simp only [h4, if_neg, if_false] at h
          injection h with h
          subst h
          exact ⟨Nat.le_succ _, fun hst => absurd hst h1, fun _ hp => absurd hp h2,
            fun _ _ hsp => absurd hsp h3, fun _ _ _ hb => absurd hb h4,
            fun _ _ _ _ => rfl⟩

/-- The tag list of the C9 witness node: it carries both a station marker and
a platform marker, so only the station branch may fire. -/
def c9Tags : List (String × String) :=
  [("railway", "station"), ("public_transport", "platform"),
   ("name", "A"), ("ref", "r1")]

/-- The loader state after classifying the C9 witness node. -/
def c9State : OSMLoader :=
  { stations := [{ id := "5", name := "A", pkpplk := "r1", ibnr := none,
                   position := (none, none),
                   other_tags := ("_id", "5") :: c9Tags }],
    platforms := [], stop_positions := [], bus_stops := [],
    dangling_nodes := ["5"] }

theorem node_classification_precedence_witness :
    processNode OSMLoader.init "5" (none, none) c9Tags = some c9State
    ∧ (c9State.stations.length = OSMLoader.init.stations.length + 1
       ∧ c9State.platforms = OSMLoader.init.platforms
       ∧ c9State.stop_positions = OSMLoader.init.stop_positions
       ∧ c9State.bus_stops = OSMLoader.init.bus_stops) :=
  ⟨by decide,
   (node_classification_precedence OSMLoader.init "5" (none, none) c9Tags c9State
      (by decide)).2.1 (by decide)⟩

/-! The reporting-loop characterization and claims C8 and C10. -/

theorem reportStep_foldl {γ R : Type} (f : γ → Option R) (l : List γ) :
    ∀ acc : List R × Bool,
      l.foldl (reportStep f) acc
        = (acc.1 ++ l.filterMap f, acc.2 && (l.filterMap f).isEmpty) := by
  induction l with
  | nil => intro acc; simp
  | cons g l ih =>
    intro acc
    cases hf : f g with
    | none => simp [reportStep, hf, ih, List.filterMap_cons]
    | some r => simp [reportStep, hf, ih, List.filterMap_cons]

theorem runChecks_eq {γ R : Type} (f : γ → Option R) (l : List γ) :
    runChecks f l = (l.filterMap f, (l.filterMap f).isEmpty) := by
  simp [runChecks, reportStep_foldl]

/-- C8: the verifier's main entry point runs all seven rule groups and its
exit code is 0 exactly when every group passed: the overall outcome is the
conjunction of the group results, with no short-circuiting (each `verify_x`
result enters the conjunction regardless of the others). -/
theorem verify_main_conjunction (dist : Pos → Pos → FVal) (data : OSMLoader) :
    (verify_exit_code dist data = 0 ↔ verify_main_ok dist data = true)
    ∧ (verify_main_ok dist data = true ↔
        ((verify_uniq_pkpplk data.stations).2 = true
         ∧ (verify_uniq_names data.stations).2 = true
         ∧ (verify_uniq_ibnr data.stations).2 = true
         ∧ (verify_other_attributes data.stations).2 = true
         ∧ (verify_platforms dist (stationsMapOf data.stations) data.platforms).2
             = true
         ∧ (verify_stop_positions dist (stationsMapOf data.stations)
              data.stop_positions).2 = true
         ∧ (verify_bus_stops (stationsMapOf data.stations) data.bus_stops).2
             = true)) := by
  constructor
  · unfold verify_exit_code
    split <;> simp_all
  · unfold verify_main_ok
    simp only [Bool.and_true, Bool.and_eq_true]
    tauto

/-- C10: a group whose owning-station reference does not resolve contributes
exactly one invalid-reference report listing the sorted member identifiers and
nothing else: each grouped rule function's report list is the group-wise
`filterMap` of its per-group body, and on an unresolved reference that body
returns only the invalid-reference report (the `continue` skips every other
check for the group). -/
theorem invalid_reference_short_circuit (dist : Pos → Pos → FVal)
    (stations_map : List (String × Station)) :
    (∀ all_platforms : List (String × List Platform),
       (verify_platforms dist stations_map all_platforms).1
         = all_platforms.filterMap (platformsGroupCheck dist stations_map))
    ∧ (∀ g : String × List Platform, dictGet stations_map g.1 = none →
        platformsGroupCheck dist stations_map g
          = some (GroupReport.invalidRef g.1
              (sortStrings (g.2.map (fun p => p.id)))))
    ∧ (∀ all_stop_positions : List (String × List StopPosition),
       (verify_stop_positions dist stations_map all_stop_positions).1
         = all_stop_positions.filterMap (spGroupCheck dist stations_map))
    ∧ (∀ g : String × List StopPosition, dictGet stations_map g.1 = none →
        spGroupCheck dist stations_map g
          = some (GroupReport.invalidRef g.1
              (sortStrings (g.2.map (fun sp => sp.id)))))
    ∧ (∀ all_bus_stops : List (String × List BusStop),
       (verify_bus_stops stations_map all_bus_stops).1
         = all_bus_stops.filterMap (busGroupCheck stations_map))
    ∧ (∀ g : String × List BusStop, dictGet stations_map g.1 = none →
        busGroupCheck stations_map g
          = some (GroupReport.invalidRef g.1
              (sortStrings (g.2.map (fun b => b.id))))) := by
  refine ⟨fun l => by simp [verify_platforms, runChecks_eq],
    fun g hg => by simp [platformsGroupCheck, hg],
    fun l => by simp [verify_stop_positions, runChecks_eq],
    fun g hg => by simp [spGroupCheck, hg],
    fun l => by simp [verify_bus_stops, runChecks_eq],
    fun g hg => by simp [busGroupCheck, hg]⟩

theorem invalid_reference_short_circuit_witness :
    dictGet ([] : List (String × Station)) "x" = none
    ∧ platformsGroupCheck (fun _ _ => none) [] ("x", [])
        = some (GroupReport.invalidRef "x"
            (sortStrings (([] : List Platform).map (fun p => p.id)))) :=
  ⟨by decide,
   (invalid_reference_short_circuit (fun _ _ => none) []).2.1 ("x", [])
     (by decide)⟩

/-! Proximity, fallback and bus-stop coverage rules (claims C5, C6, C7). -/

theorem fval_flag_iff (d : FVal) :
    (fvalGt d 100 || fvalIsNan d) = true
      ↔ (d = none ∨ ∃ v : ℚ, d = some v ∧ 100 < v) := by
  cases d with
  | none => simp [fvalGt, fvalIsNan]
  | some v =>
    simp only [fvalGt, fvalIsNan, Option.isNone_some, Bool.or_false,
      decide_eq_true_eq, Option.some.injEq, reduceCtorEq, false_or]
    constructor
    · intro h; exact ⟨v, rfl, h⟩
    · rintro ⟨w, rfl, h⟩; exact h

theorem platform_tooFar_mem (dist : Pos → Pos → FVal) (st : Station)
    (p : Platform) (d : FVal) :
    Issue.platformTooFar p.name d ∈ platformEntityIssues dist st p
      ↔ (d = dist p.position st.position
         ∧ (fvalGt (dist p.position st.position) 100
            || fvalIsNan (dist p.position st.position)) = true) := by
  simp only [platformEntityIssues, List.mem_append]
  constructor
  · rintro ((h | h) | h)
    · by_cases hf : (fvalGt (dist p.position st.position) 100
          || fvalIsNan (dist p.position st.position)) = true
      · rw [if_pos hf] at h
        simp at h
        exact ⟨h, hf⟩
      · rw [if_neg hf] at h
        simp at h
    · obtain ⟨code, _, heq⟩ := List.mem_filterMap.mp h
      by_cases hz : isZtmwPlatformCode code = true
      · rw [if_pos hz] at heq; cases heq
      · rw [if_neg hz] at heq; simp at heq
    · by_cases hw : wheelchairBad (tagGet p.other_tags "wheelchair") = true
      · rw [if_pos hw] at h; simp at h
      · rw [if_neg hw] at h; simp at h
  · rintro ⟨rfl, hf⟩
    left; left
    rw [if_pos hf]
    simp

theorem sp_tooFar_mem (dist : Pos → Pos → FVal)
    (stations_map : List (String × Station)) (st : Station) (sp : StopPosition)
    (d : FVal) :
    Issue.spTooFar sp.id d ∈ spEntityIssues dist stations_map st sp
      ↔ (d = dist sp.position st.position
         ∧ (fvalGt (dist sp.position st.position) 100
            || fvalIsNan (dist sp.position st.position)) = true) := by
  simp only [spEntityIssues, List.mem_append]
  constructor
  · rintro ((h | h) | h)
    · by_cases hf : (fvalGt (dist sp.position st.position) 100
          || fvalIsNan (dist sp.position st.position)) = true
      · rw [if_pos hf] at h
        simp at h
        exact ⟨h, hf⟩
      · rw [if_neg hf] at h
        simp at h
    · by_cases hp : sp.platforms = []
      · rw [if_pos hp] at h; simp at h
      · rw [if_neg hp] at h; simp at h
    · by_cases h0 : (sp.towards == "") = true
      · rw [if_pos h0] at h; simp at h
      · rw [if_neg h0] at h
        by_cases h1 : (sp.towards == "fallback") = true
        · rw [if_pos h1] at h; simp at h
        · rw [if_neg h1] at h
          by_cases h2 : ((splitSemi sp.towards).filter
              (fun r => (dictGet stations_map r).isNone)) = []
          · simp only [h2, if_pos] at h; simp at h
          · simp only [h2, if_neg, if_false] at h; simp at h
  · rintro ⟨rfl, hf⟩
    left; left
    rw [if_pos hf]
    simp

/-- C5: for a resolved owning station, a platform or stop-position proximity
violation is reported exactly when the computed distance is NaN or strictly
greater than 100; a real distance of at most 100 yields no proximity issue.
The group-level conjuncts show the per-entity issue reaching the group's
issue list that `verify_platforms` / `verify_stop_positions` print. -/
theorem proximity_violation_iff :
    (∀ (dist : Pos → Pos → FVal) (st : Station) (p : Platform),
       Issue.platformTooFar p.name (dist p.position st.position)
           ∈ platformEntityIssues dist st p
         ↔ (dist p.position st.position = none
            ∨ ∃ v : ℚ, dist p.position st.position = some v ∧ 100 < v))
    ∧ (∀ (dist : Pos → Pos → FVal) (stations_map : List (String × Station))
         (st : Station) (sp : StopPosition),
       Issue.spTooFar sp.id (dist sp.position st.position)
           ∈ spEntityIssues dist stations_map st sp
         ↔ (dist sp.position st.position = none
            ∨ ∃ v : ℚ, dist sp.position st.position = some v ∧ 100 < v))
    ∧ (∀ (dist : Pos → Pos → FVal) (st : Station) (ps : List Platform)
         (p : Platform), p ∈ ps →
       (fvalGt (dist p.position st.position) 100
        || fvalIsNan (dist p.position st.position)) = true →
       Issue.platformTooFar p.name (dist p.position st.position)
         ∈ platformGroupIssues dist st ps)
    ∧ (∀ (dist : Pos → Pos → FVal) (stations_map : List (String × Station))
         (st : Station) (sps : List StopPosition) (sp : StopPosition),
         sp ∈ sps →
       (fvalGt (dist sp.position st.position) 100
        || fvalIsNan (dist sp.position st.position)) = true →
       Issue.spTooFar sp.id (dist sp.position st.position)
         ∈ spGroupIssues dist stations_map st sps)
    ∧ (∀ (dist : Pos → Pos → FVal) (st : Station) (p : Platform) (v : ℚ),
         dist p.position st.position = some v → v ≤ 100 →
         ∀ d : FVal,
           ¬ Issue.platformTooFar p.name d ∈ platformEntityIssues dist st p)
    ∧ (∀ (dist : Pos → Pos → FVal) (stations_map : List (String × Station))
         (st : Station) (sp : StopPosition) (v : ℚ),
         dist sp.position st.position = some v → v ≤ 100 →
         ∀ d : FVal,
           ¬ Issue.spTooFar sp.id d ∈ spEntityIssues dist stations_map st sp) := by
  refine ⟨?_, ?_, ?_, ?_, ?_, ?_⟩
  · intro dist st p
    rw [platform_tooFar_mem, ← fval_flag_iff]
    simp
  · intro dist stations_map st sp
    rw [sp_tooFar_mem, ← fval_flag_iff]
    simp
  · intro dist st ps p hp hf
    have := (platform_tooFar_mem dist st p (dist p.position st.position)).mpr
      ⟨rfl, hf⟩
    unfold platformGroupIssues
    simp only [List.mem_append]
    right
    exact List.mem_flatMap.mpr ⟨p, hp, this⟩
  · intro dist stations_map st sps sp hp hf
    have := (sp_tooFar_mem dist stations_map st sp
      (dist sp.position st.position)).mpr ⟨rfl, hf⟩
    unfold spGroupIssues
    simp only [List.mem_append]
    left
    exact List.mem_flatMap.mpr ⟨sp, hp, this⟩
  · intro dist st p v hv hle d hmem
    obtain ⟨-, hf⟩ := (platform_tooFar_mem dist st p d).mp hmem
    rw [hv] at hf
    simp [fvalGt, fvalIsNan] at hf
    exact absurd hf (not_lt.mpr hle)
  · intro dist stations_map st sp v hv hle d hmem
    obtain ⟨-, hf⟩ := (sp_tooFar_mem dist stations_map st sp d).mp hmem
    rw [hv] at hf
    simp [fvalGt, fvalIsNan] at hf
    exact absurd hf (not_lt.mpr hle)

/-- Positions used by the C5 witness. -/
def posA : Pos := (some 0, some 0)

/-- A distance function for the C5 witness that reports 150 everywhere. -/
def distFar (a b : Pos) : FVal :=
  match a, b with
  | _, _ => some 150

/-- The platform of the C5 witness. -/
def c5Platform : Platform :=
  { id := "p1", name := "Peron 1", station := "r1", position := posA,
    other_tags := [] }

/-- The station of the C5 witness. -/
def c5Station : Station :=
  { id := "1", name := "A", pkpplk := "r1", ibnr := none, position := posA,
    other_tags := [] }

theorem proximity_violation_iff_witness :
    c5Platform ∈ [c5Platform]
    ∧ (fvalGt (distFar c5Platform.position c5Station.position) 100
       || fvalIsNan (distFar c5Platform.position c5Station.position)) = true
    ∧ Issue.platformTooFar c5Platform.name
        (distFar c5Platform.position c5Station.position)
        ∈ platformGroupIssues distFar c5Station [c5Platform] :=
  ⟨List.mem_cons_self c5Platform [],
   by decide,
   proximity_violation_iff.2.2.1 distFar c5Station [c5Platform] c5Platform
     (List.mem_cons_self c5Platform []) (by decide)⟩

theorem sp_no_fallback_entity (dist : Pos → Pos → FVal)
    (stations_map : List (String × Station)) (st : Station) (sp : StopPosition)
    (n : Nat) : ¬ Issue.fallbackCount n ∈ spEntityIssues dist stations_map st sp := by
  intro h
  simp only [spEntityIssues, List.mem_append] at h
  rcases h with (h | h) | h
  · by_cases hf : (fvalGt (dist sp.position st.position) 100
        || fvalIsNan (dist sp.position st.position)) = true
    · rw [if_pos hf] at h; simp at h
    · rw [if_neg hf] at h; simp at h
  · by_cases hp : sp.platforms = []
    · rw [if_pos hp] at h; simp at h
    · rw [if_neg hp] at h; simp at h
  · by_cases h0 : (sp.towards == "") = true
    · rw [if_pos h0] at h; simp at h
    · rw [if_neg h0] at h
      by_cases h1 : (sp.towards == "fallback") = true
      · rw [if_pos h1] at h; simp at h
      · rw [if_neg h1] at h
        by_cases h2 : ((splitSemi sp.towards).filter
            (fun r => (dictGet stations_map r).isNone)) = []
        · simp only [h2, if_pos] at h; simp at h
        · simp only [h2, if_neg, if_false] at h; simp at h

/-- C6: for a resolved stop-position group, the fallback-count violation
naming the observed count appears in the group's issues exactly when the
number of `towards=fallback` stop positions differs from one, and with
exactly one fallback stop position no fallback-count violation exists. -/
theorem fallback_count_rule (dist : Pos → Pos → FVal)
    (stations_map : List (String × Station)) (st : Station)
    (sps : List StopPosition) :
    (Issue.fallbackCount (fallbackCountOf sps)
        ∈ spGroupIssues dist stations_map st sps
      ↔ fallbackCountOf sps ≠ 1)
    ∧ (∀ n, Issue.fallbackCount n ∈ spGroupIssues dist stations_map st sps →
        n = fallbackCountOf sps)
    ∧ (fallbackCountOf sps = 1 →
        ∀ n, ¬ Issue.fallbackCount n ∈ spGroupIssues dist stations_map st sps) := by
  refine ⟨?_, ?_, ?_⟩
  · unfold spGroupIssues
    simp only [List.mem_append]
    constructor
    · rintro (h | h)
      · obtain ⟨sp, _, hmem⟩ := List.mem_flatMap.mp h
        exact absurd hmem (sp_no_fallback_entity dist stations_map st sp _)
      · by_cases hne : fallbackCountOf sps ≠ 1
        · exact hne
        · rw [if_neg hne] at h; simp at h
    · intro hne
      right
      rw [if_pos hne]
      simp
  · intro n
    unfold spGroupIssues
    simp only [List.mem_append]
    rintro (h | h)
    · obtain ⟨sp, _, hmem⟩ := List.mem_flatMap.mp h
      exact absurd hmem (sp_no_fallback_entity dist stations_map st sp _)
    · by_cases hne : fallbackCountOf sps ≠ 1
      · rw [if_pos hne] at h; simp at h; exact h
      · rw [if_neg hne] at h; simp at h
  · intro h1 n hmem
    unfold spGroupIssues at hmem
    simp only [List.mem_append] at hmem
    rcases hmem with h | h
    · obtain ⟨sp, _, hm⟩ := List.mem_flatMap.mp h
      exact absurd hm (sp_no_fallback_entity dist stations_map st sp _)
    · rw [if_neg (by simp [h1])] at h
      simp at h

/-- The stop position of the C6 witness: its `towards` is empty, so the group
has zero fallback stop positions. -/
def c6Sp : StopPosition :=
  { id := "s1", station := "r1", towards := "", platforms := ["1"],
    position := posA }

theorem fallback_count_rule_witness :
    fallbackCountOf [c6Sp] = 0
    ∧ Issue.fallbackCount (fallbackCountOf [c6Sp])
        ∈ spGroupIssues (fun _ _ => none) [] c5Station [c6Sp] :=
  ⟨by decide,
   (fallback_count_rule (fun _ _ => none) [] c5Station [c6Sp]).1.mpr
     (by decide)⟩

theorem validateDirectionHints_no_coverage (c : List (String × Nat))
    (hs : List String) :
    ¬ Issue.incompleteCoverage hs ∈ validateDirectionHints c := by
  intro h
  simp only [validateDirectionHints] at h
  split at h
  · simp at h
  · simp only [List.mem_append] at h
    rcases h with (h | h) | h
    · obtain ⟨p, _, hmem⟩ := List.mem_flatMap.mp h
      split at hmem
      · simp at hmem
      · split at hmem
        · simp at hmem
        · split at hmem <;> simp at hmem
    · split at h <;> simp at h
    · split at h <;> simp at h

/-- C7: for a station with exactly one bus stop (in the resolved branch of
`verify_bus_stops`), the incomplete-coverage violation is reported exactly
when the stop's direction-hint list is neither empty nor the sole wildcard
hint; the violation always names that stop's hint list. -/
theorem single_bus_stop_coverage (b : BusStop) :
    (Issue.incompleteCoverage b.direction_hints ∈ busGroupIssues [b]
      ↔ (b.direction_hints ≠ [] ∧ b.direction_hints ≠ ["*"]))
    ∧ (∀ hs, Issue.incompleteCoverage hs ∈ busGroupIssues [b] →
        hs = b.direction_hints) := by
  constructor
  · simp only [busGroupIssues, List.mem_append]
    constructor
    · rintro (h | h)
      · by_cases hc : b.direction_hints ≠ [] ∧ b.direction_hints ≠ ["*"]
        · exact hc
        · rw [if_neg hc] at h; simp at h
      · exact absurd h (validateDirectionHints_no_coverage _ _)
    · intro hne
      left
      rw [if_pos hne]
      simp
  · intro hs
    simp only [busGroupIssues, List.mem_append]
    rintro (h | h)
    · by_cases hc : b.direction_hints ≠ [] ∧ b.direction_hints ≠ ["*"]
      · rw [if_pos hc] at h; simp at h; exact h
      · rw [if_neg hc] at h; simp at h
    · exact absurd h (validateDirectionHints_no_coverage _ _)

/-- The bus stop of the C7 witness: two wildcard hints. -/
def c7Bus : BusStop :=
  { id := "b1", station := "r1", direction_hints := ["*", "*"],
    position := posA }

theorem single_bus_stop_coverage_witness :
    (c7Bus.direction_hints ≠ [] ∧ c7Bus.direction_hints ≠ ["*"])
    ∧ Issue.incompleteCoverage c7Bus.direction_hints ∈ busGroupIssues [c7Bus] :=
  ⟨by decide, (single_bus_stop_coverage c7Bus).1.mpr (by decide)⟩

/-! The station-by-code mappings of `src/scripts/compare_stops.py`
(claim C3). -/

theorem dictInsert_fresh {α : Type} (d : List (String × α)) (k : String) (v : α)
    (h : ∀ p ∈ d, p.1 ≠ k) : dictInsert d k v = d ++ [(k, v)] := by
  induction d with
  | nil => rfl
  | cons p d ih =>
    cases p with
    | mk k0 v0 =>
      have hk : k0 ≠ k := h (k0, v0) (List.mem_cons_self _ _)
      simp only [dictInsert, if_neg hk, List.cons_append, List.cons.injEq,
        true_and]
      exact ih (fun q hq => h q (List.mem_cons_of_mem _ hq))

theorem buildMap_go {α : Type} (cond : α → Bool) (key : α → String)
    (l : List α) :
    ∀ d : List (String × α),
      ((l.filter cond).map key).Nodup →
      (∀ a ∈ l.filter cond, ∀ p ∈ d, p.1 ≠ key a) →
      l.foldl (fun acc s => if cond s then dictInsert acc (key s) s else acc) d
        = d ++ (l.filter cond).map (fun s => (key s, s)) := by
  induction l with
  | nil => intro d _ _; simp
  | cons a l ih =>
    intro d hnd hfresh
    by_cases hc : cond a = true
    · have hfilter : (a :: l).filter cond = a :: l.filter cond := by
        simp [List.filter_cons, hc]
      rw [hfilter] at hnd hfresh
      rw [List.map_cons] at hnd
      simp only [List.foldl_cons, hc, if_pos]
      rw [dictInsert_fresh d (key a) a
        (fun p hp => hfresh a (List.mem_cons_self _ _) p hp)]
      rw [ih (d ++ [(key a, a)]) hnd.of_cons ?_]
      · rw [hfilter]
        simp
      · intro b hb p hp
        rcases List.mem_append.mp hp with hp | hp
        · exact hfresh b (List.mem_cons_of_mem _ hb) p hp
        · simp only [List.mem_singleton] at hp
          subst hp
          have hnotin : key a ∉ (l.filter cond).map key :=
            (List.nodup_cons.mp hnd).1
          intro heq
          have heq2 : key a = key b := heq
          have hmem : key b ∈ (l.filter cond).map key :=
            List.mem_map_of_mem key hb
          rw [← heq2] at hmem
          exact hnotin hmem
    · have hfilter : (a :: l).filter cond = l.filter cond := by
        simp [List.filter_cons, hc]
      rw [hfilter] at hnd hfresh
      simp only [List.foldl_cons, hc, if_neg, Bool.false_eq_true, if_false]
      rw [hfilter]
      exact ih d hnd hfresh

theorem buildMap_exact {α : Type} (cond : α → Bool) (key : α → String)
    (l : List α) (hnd : ((l.filter cond).map key).Nodup) :
    buildMap cond key l = (l.filter cond).map (fun s => (key s, s)) := by
  have := buildMap_go cond key l [] hnd (fun a _ p hp => absurd hp (List.not_mem_nil p))
  simpa [buildMap] using this

/-- C3 (amended): when the non-empty registry codes are pairwise distinct,
and likewise the declared international codes, the derived mappings hold
exactly the stations with non-empty respective codes, each exactly once (the
value lists coincide with the filtered station lists). With a duplicated code
the dict comprehension overwrites the earlier station, which is then lost
from the values (see the counterexample). -/
theorem station_maps_exact (stations : List Station)
    (h1 : ((stations.filter pkpplkTruthy).map (fun s => s.pkpplk)).Nodup)
    (h2 : ((stations.filter ibnrTruthy).map (fun s => s.ibnr.getD "")).Nodup) :
    dictValues (stations_by_pkpplk stations) = stations.filter pkpplkTruthy
    ∧ dictValues (stations_by_ibnr stations) = stations.filter ibnrTruthy := by
  constructor
  · rw [stations_by_pkpplk, buildMap_exact _ _ _ h1]
    simp only [dictValues, List.map_map]
    exact List.map_id (stations.filter pkpplkTruthy)
  · rw [stations_by_ibnr, buildMap_exact _ _ _ h2]
    simp only [dictValues, List.map_map]
    exact List.map_id (stations.filter ibnrTruthy)

/-- First station of the C3 examples. -/
def csA : Station :=
  { id := "1", name := "A", pkpplk := "11111", ibnr := some "100",
    position := (none, none), other_tags := [] }

/-- Second station of the C3 examples; it shares no code with `csA`. -/
def csC : Station :=
  { id := "3", name := "C", pkpplk := "22222", ibnr := some "300",
    position := (none, none), other_tags := [] }

/-- A station sharing `csA`'s registry code, used by the C3 counterexample. -/
def csB : Station :=
  { id := "2", name := "B", pkpplk := "11111", ibnr := some "200",
    position := (none, none), other_tags := [] }

theorem station_maps_exact_witness :
    ((([csA, csC] : List Station).filter pkpplkTruthy).map
        (fun s => s.pkpplk)).Nodup
    ∧ ((([csA, csC] : List Station).filter ibnrTruthy).map
        (fun s => s.ibnr.getD "")).Nodup
    ∧ dictValues (stations_by_pkpplk [csA, csC])
        = ([csA, csC] : List Station).filter pkpplkTruthy
    ∧ dictValues (stations_by_ibnr [csA, csC])
        = ([csA, csC] : List Station).filter ibnrTruthy :=
  ⟨by decide, by decide,
   (station_maps_exact [csA, csC] (by decide) (by decide)).1,
   (station_maps_exact [csA, csC] (by decide) (by decide)).2⟩

/-- C3 counterexample: stations `csA` and `csB` both carry the non-empty
registry code `11111`; the comprehension keeps only the later one, so `csA`
is lost from the values of the registry-code mapping — the mapping does not
contain every station with a non-empty code exactly once. -/
theorem station_maps_lossy :
    dictValues (stations_by_pkpplk [csA, csB]) = [csB]
    ∧ pkpplkTruthy csA = true
    ∧ ¬ csA ∈ dictValues (stations_by_pkpplk [csA, csB]) := by
  refine ⟨by decide, by decide, by decide⟩

/-! Display-name uniqueness (claim C4). -/

theorem filterMap_dup_groups (l : List (String × List Station)) :
    l.filterMap (fun g => if 1 < g.2.length then some g.2 else none)
      = (l.map Prod.snd).filter (fun g => decide (1 < g.length)) := by
  induction l with
  | nil => rfl
  | cons g l ih => by_cases h : 1 < g.2.length <;> simp [h, ih]

theorem filterMap_dup_groups_legacy (l : List (String × List Station)) :
    l.filterMap (fun g =>
        if 1 < g.2.length then
          if g.2.all (fun s => s.ibnr == some "404") then none else some g.2
        else none)
      = (l.map Prod.snd).filter
          (fun g => decide (1 < g.length)
            && !(g.all (fun s => s.ibnr == some "404"))) := by
  induction l with
  | nil => rfl
  | cons g l ih =>
    rw [List.filterMap_cons, List.map_cons, List.filter_cons]
    by_cases h1 : 1 < g.2.length
    · by_cases h2 : (g.2.all (fun s => s.ibnr == some "404")) = true
      · rw [if_pos h1, if_pos h2, ih]
        simp [h1, h2]
      · have h2f : (g.2.all (fun s => s.ibnr == some "404")) = false :=
          Bool.not_eq_true _ ▸ h2
        rw [if_pos h1, if_neg h2, ih]
        simp [h1, h2f]
    · rw [if_neg h1, ih]
      simp [h1]

/-- C4 (amended): the name-uniqueness rule of the older `src/verify.py`
reports exactly the duplicate-name groups that are not entirely made of
IBNR-404 stations (the Warszawa Zachodnia allow-list) and passes iff every
duplicate-name group is so allow-listed; the `src/scripts/verify.py` variant
has no allow-list: it reports every duplicate-name group, including
all-404 ones, and passes iff no name is duplicated at all. -/
theorem uniq_names_allowlist (stations : List Station) :
    (verify_uniq_names_legacy stations).1
        = ((group_by stations (fun s => s.name)).map Prod.snd).filter
            (fun g => decide (1 < g.length)
              && !(g.all (fun s => s.ibnr == some "404")))
    ∧ ((verify_uniq_names_legacy stations).2 = true
        ↔ ∀ g ∈ (group_by stations (fun s => s.name)).map Prod.snd,
            1 < g.length → g.all (fun s => s.ibnr == some "404") = true)
    ∧ (verify_uniq_names stations).1
        = ((group_by stations (fun s => s.name)).map Prod.snd).filter
            (fun g => decide (1 < g.length))
    ∧ ((verify_uniq_names stations).2 = true
        ↔ ∀ g ∈ (group_by stations (fun s => s.name)).map Prod.snd,
            ¬ 1 < g.length) := by
  refine ⟨?_, ?_, ?_, ?_⟩
  · unfold verify_uniq_names_legacy
    rw [runChecks_eq]
    exact filterMap_dup_groups_legacy _
  · unfold verify_uniq_names_legacy
    rw [runChecks_eq]
    show (List.filterMap _ _).isEmpty = true ↔ _
    rw [filterMap_dup_groups_legacy, List.isEmpty_iff, List.filter_eq_nil_iff]
    constructor
    · intro hall g hg hlen
      have hthis := hall g hg
      simp only [Bool.and_eq_true, decide_eq_true_eq, Bool.not_eq_true',
        not_and] at hthis
      have hne := hthis hlen
      cases hb : g.all (fun s => s.ibnr == some "404")
      · exact absurd hb hne
      · rfl
    · intro hall g hg
      simp only [Bool.and_eq_true, decide_eq_true_eq, Bool.not_eq_true', not_and]
      intro hlen
      simp [hall g hg hlen]
  · unfold verify_uniq_names
    rw [runChecks_eq]
    exact filterMap_dup_groups _
  · unfold verify_uniq_names
    rw [runChecks_eq]
    show (List.filterMap _ _).isEmpty = true ↔ _
    rw [filterMap_dup_groups, List.isEmpty_iff, List.filter_eq_nil_iff]
    simp

/-- First Warszawa Zachodnia node of the C4 counterexample. -/
def wzA : Station :=
  { id := "1", name := "Warszawa Zachodnia", pkpplk := "33506",
    ibnr := some "404", position := (none, none), other_tags := [] }

/-- Second Warszawa Zachodnia node of the C4 counterexample. -/
def wzB : Station :=
  { id := "2", name := "Warszawa Zachodnia", pkpplk := "34868",
    ibnr := some "404", position := (none, none), other_tags := [] }

/-- C4 counterexample: `wzA` and `wzB` share a name and both carry
international code `404`, so the single duplicate-name group is entirely
allow-listed — yet `verify_uniq_names` of `src/scripts/verify.py` still
reports the group and fails, where the claim predicts a pass. The legacy
`src/verify.py` rule skips it and passes. -/
theorem uniq_names_allowlist_counterexample :
    ([wzA, wzB].all (fun s => s.ibnr == some "404")) = true
    ∧ verify_uniq_names [wzA, wzB] = ([[wzA, wzB]], false)
    ∧ verify_uniq_names_legacy [wzA, wzB] = ([], true) := by
  refine ⟨by decide, by decide, by decide⟩

/-! The shared direction-hint validator against the claim's enumeration of
issue categories (claim C2). The `spec`/`Bucket` definitions below follow the
claim's words; the theorem compares them with `validateDirectionHints`, the
translation of the code. -/

/-- Any compass heading is in the valid vocabulary. -/
theorem heading_valid {h : String} (hh : h ∈ HEADING_HINTS) :
    h ∈ VALID_HINTS :=
  List.mem_cons_of_mem _ (List.mem_cons_of_mem _ hh)

/-- Claim C2, category 1: one issue per token outside the vocabulary. -/
def invalidBucket (hc : String × Nat) : Option Issue :=
  if hc.1 ∈ VALID_HINTS then none else some (Issue.invalidHint hc.1)

/-- Claim C2, category 2: when the wildcard is present (`w`), one clash issue
per compass-heading token present. -/
def clashBucket (w : Bool) (hc : String × Nat) : Option Issue :=
  if w = true ∧ hc.1 ∈ HEADING_HINTS then some (Issue.wildcardClash hc.1)
  else none

/-- Claim C2, category 3: one count issue per remaining token (valid, not a
wildcard clash) whose count exceeds one. -/
def countBucket (w : Bool) (hc : String × Nat) : Option Issue :=
  if hc.1 ∈ VALID_HINTS ∧ ¬ (w = true ∧ hc.1 ∈ HEADING_HINTS) ∧ 1 < hc.2
  then some (Issue.hintUsedTimes hc.1 hc.2) else none

/-- Whether the token multiset contains the wildcard. -/
def specWildcard (c : List (String × Nat)) : Bool :=
  (c.map Prod.fst).contains "*"

/-- The compass headings among the tokens (Counter keys are distinct). -/
def specHeadings (c : List (String × Nat)) : List String :=
  (c.map Prod.fst).filter (fun h => HEADING_HINTS.contains h)

/-- Claim C2, category 4: the terminus token present without the wildcard and
without any heading. -/
def specTerminusIssues (c : List (String × Nat)) : List Issue :=
  if (c.map Prod.fst).contains "T" = true ∧ specWildcard c = false
      ∧ specHeadings c = []
  then [Issue.onlyTerminus] else []

/-- Claim C2, category 5: wildcard absent and fewer than two distinct
headings. -/
def specOnlyOneHeading (c : List (String × Nat)) : List Issue :=
  if specWildcard c = false ∧ (specHeadings c).length < 2
  then [Issue.onlyOneHeading] else []

theorem counterGet_pos_iff (c : List (String × Nat)) (k : String)
    (hpos : ∀ p ∈ c, 1 ≤ p.2) :
    decide (0 < counterGet c k) = (c.map Prod.fst).contains k := by
  induction c with
  | nil => rfl
  | cons p c ih =>
    have hp2 : 1 ≤ p.2 := hpos p (List.mem_cons_self _ _)
    have hrest : ∀ q ∈ c, 1 ≤ q.2 :=
      fun q hq => hpos q (List.mem_cons_of_mem _ hq)
    by_cases hp : p.1 = k
    · simp [counterGet, List.find?_cons, hp, List.contains_cons]
      omega
    · have hp1 : (p.1 == k) = false := by simp [hp]
      have hp2q : (k == p.1) = false := by
        simp only [beq_eq_false_iff_ne, ne_eq]
        exact fun hh => hp hh.symm
      simp only [counterGet, List.find?_cons, hp1, List.map_cons,
        List.contains_cons, hp2q, Bool.false_or]
      exact ih hrest

theorem hint_loop_categories (w : Bool) (c : List (String × Nat)) :
    ((c.flatMap (fun hc =>
        if ¬ hc.1 ∈ VALID_HINTS then [Issue.invalidHint hc.1]
        else if w && HEADING_HINTS.contains hc.1 then [Issue.wildcardClash hc.1]
        else if 1 < hc.2 then [Issue.hintUsedTimes hc.1 hc.2]
        else [])) : Multiset Issue)
      = ↑(c.filterMap invalidBucket) + ↑(c.filterMap (clashBucket w))
        + ↑(c.filterMap (countBucket w)) := by
  induction c with
  | nil => rfl
  | cons a c ih =>
    rw [List.flatMap_cons, List.filterMap_cons, List.filterMap_cons,
      List.filterMap_cons]
    by_cases h1 : a.1 ∈ VALID_HINTS
    · by_cases h2 : (w && HEADING_HINTS.contains a.1) = true
      · have h2p := h2
        rw [Bool.and_eq_true] at h2p
        have hw : w = true := h2p.1
        have hh : a.1 ∈ HEADING_HINTS := by simpa using h2p.2
        have hib : invalidBucket a = none := by simp [invalidBucket, h1]
        have hcb : clashBucket w a = some (Issue.wildcardClash a.1) := by
          simp [clashBucket, hw, hh]
        have hnb : countBucket w a = none := by
          simp [countBucket, hw, hh]
        rw [hib, hcb, hnb, if_neg (not_not_intro h1), if_pos h2]
        simp only [← Multiset.coe_add, List.singleton_append] at *
        simp only [← Multiset.cons_coe, ← Multiset.singleton_add, ih]
        abel
      · by_cases h3 : 1 < a.2
        · have hib : invalidBucket a = none := by simp [invalidBucket, h1]
          have hcb : clashBucket w a = none := by
            simp only [clashBucket, ite_eq_right_iff]
            intro hcond
            exact absurd (by simp [hcond.1, hcond.2] :
              (w && HEADING_HINTS.contains a.1) = true) h2
          have hnb : countBucket w a = some (Issue.hintUsedTimes a.1 a.2) := by
            rw [countBucket, if_pos]
            refine ⟨h1, ?_, h3⟩
            intro hcond
            exact absurd (by simp [hcond.1, hcond.2] :
              (w && HEADING_HINTS.contains a.1) = true) h2
          rw [hib, hcb, hnb, if_neg (not_not_intro h1), if_neg h2, if_pos h3]
          simp only [← Multiset.coe_add, List.singleton_append] at *
          simp only [← Multiset.cons_coe, ← Multiset.singleton_add, ih]
          abel
        · have hib : invalidBucket a = none := by simp [invalidBucket, h1]
          have hcb : clashBucket w a = none := by
            simp only [clashBucket, ite_eq_right_iff]
            intro hcond
            exact absurd (by simp [hcond.1, hcond.2] :
              (w && HEADING_HINTS.contains a.1) = true) h2
          have hnb : countBucket w a = none := by
            simp [countBucket, h3]
          rw [hib, hcb, hnb, if_neg (not_not_intro h1), if_neg h2, if_neg h3]
          simpa using ih
    · have hib : invalidBucket a = some (Issue.invalidHint a.1) := by
        simp [invalidBucket, h1]
      have hcb : clashBucket w a = none := by
        simp only [clashBucket, ite_eq_right_iff]
        intro hcond
        exact absurd (heading_valid hcond.2) h1
      have hnb : countBucket w a = none := by
        simp [countBucket, h1]
      rw [hib, hcb, hnb, if_pos (by simpa using h1)]
      simp only [← Multiset.coe_add, List.singleton_append] at *
      simp only [← Multiset.cons_coe, ← Multiset.singleton_add, ih]
      abel

theorem terminus_ite_eq (c : List (String × Nat)) :
    (if ((c.map Prod.fst).contains "T" && !specWildcard c
        && ((c.map Prod.fst).filter (fun h => HEADING_HINTS.contains h)).isEmpty)
     then [Issue.onlyTerminus] else ([] : List Issue))
      = specTerminusIssues c := by
  have hiff : ((c.map Prod.fst).contains "T" && !specWildcard c
      && ((c.map Prod.fst).filter (fun h => HEADING_HINTS.contains h)).isEmpty)
        = true
      ↔ ((c.map Prod.fst).contains "T" = true ∧ specWildcard c = false
         ∧ specHeadings c = []) := by
    rw [Bool.and_eq_true, Bool.and_eq_true]
    unfold specHeadings
    constructor
    · rintro ⟨⟨h1, h2⟩, h3⟩
      exact ⟨h1, by simpa using h2, by simpa [List.isEmpty_iff] using h3⟩
    · rintro ⟨h1, h2, h3⟩
      exact ⟨⟨h1, by simp [h2]⟩, by rw [List.isEmpty_iff]; exact h3⟩
  unfold specTerminusIssues
  by_cases hp : ((c.map Prod.fst).contains "T" = true ∧ specWildcard c = false
      ∧ specHeadings c = [])
  · rw [if_pos (hiff.mpr hp), if_pos hp]
  · rw [if_neg (mt hiff.mp hp), if_neg hp]

theorem onlyone_ite_eq (c : List (String × Nat)) :
    (if (!specWildcard c
        && decide (((c.map Prod.fst).filter
            (fun h => HEADING_HINTS.contains h)).length < 2))
     then [Issue.onlyOneHeading] else ([] : List Issue))
      = specOnlyOneHeading c := by
  have hiff : (!specWildcard c
      && decide (((c.map Prod.fst).filter
          (fun h => HEADING_HINTS.contains h)).length < 2)) = true
      ↔ (specWildcard c = false ∧ (specHeadings c).length < 2) := by
    rw [Bool.and_eq_true]
    unfold specHeadings
    constructor
    · rintro ⟨h1, h2⟩
      exact ⟨by simpa using h1, by simpa using h2⟩
    · rintro ⟨h1, h2⟩
      exact ⟨by simp [h1], by simpa using h2⟩
  unfold specOnlyOneHeading
  by_cases hp : (specWildcard c = false ∧ (specHeadings c).length < 2)
  · rw [if_pos (hiff.mpr hp), if_pos hp]
  · rw [if_neg (mt hiff.mp hp), if_neg hp]

theorem validateDirectionHints_categories (c : List (String × Nat))
    (hne : c ≠ []) (hpos : ∀ p ∈ c, 1 ≤ p.2) :
    (validateDirectionHints c : Multiset Issue)
      = ↑(c.filterMap invalidBucket)
        + ↑(c.filterMap (clashBucket (specWildcard c)))
        + ↑(c.filterMap (countBucket (specWildcard c)))
        + ↑(specTerminusIssues c) + ↑(specOnlyOneHeading c) := by
  have hwc := counterGet_pos_iff c "*" hpos
  simp only [validateDirectionHints, if_neg hne, hwc]
  rw [show ((c.map Prod.fst).contains "*") = specWildcard c from rfl,
    terminus_ite_eq, onlyone_ite_eq]
  simp only [← Multiset.coe_add]
  rw [hint_loop_categories]

/-- C2: over any non-empty direction-hint Counter (distinct keys with
positive counts), the shared validator's issues are, as a multiset, exactly
the five categories the claim enumerates — invalid tokens, wildcard/heading
clashes, repeated remaining tokens, terminus alone, and only-one-heading; the
empty multiset yields no issues, and the claim's concrete examples evaluate
as stated (with `{N,N}` also triggering the only-one-heading rule, as the
general clauses prescribe). -/
theorem direction_hint_validator_spec :
    (∀ c : List (String × Nat), c ≠ [] → (∀ p ∈ c, 1 ≤ p.2) →
      (validateDirectionHints c : Multiset Issue)
        = ↑(c.filterMap invalidBucket)
          + ↑(c.filterMap (clashBucket (specWildcard c)))
          + ↑(c.filterMap (countBucket (specWildcard c)))
          + ↑(specTerminusIssues c) + ↑(specOnlyOneHeading c))
    ∧ validateDirectionHints [] = []
    ∧ validateDirectionHints [("*", 1)] = []
    ∧ validateDirectionHints [("N", 1)] = [Issue.onlyOneHeading]
    ∧ validateDirectionHints [("N", 1), ("S", 1)] = []
    ∧ validateDirectionHints [("*", 1), ("N", 1)] = [Issue.wildcardClash "N"]
    ∧ validateDirectionHints [("N", 2)]
        = [Issue.hintUsedTimes "N" 2, Issue.onlyOneHeading] :=
  ⟨validateDirectionHints_categories, by decide, by decide, by decide,
   by decide, by decide, by decide⟩

theorem direction_hint_validator_spec_witness :
    (([("T", 1)] : List (String × Nat)) ≠ []
     ∧ (validateDirectionHints [("T", 1)] : Multiset Issue)
        = ↑([("T", 1)].filterMap invalidBucket)
          + ↑([("T", 1)].filterMap (clashBucket (specWildcard [("T", 1)])))
          + ↑([("T", 1)].filterMap (countBucket (specWildcard [("T", 1)])))
          + ↑(specTerminusIssues [("T", 1)])
          + ↑(specOnlyOneHeading [("T", 1)])) :=
  ⟨by decide,
   direction_hint_validator_spec.1 [("T", 1)] (by decide) (by decide)⟩

end PLRailMap
